import Mathlib

/-!
# Verification of the pyrobolearn `Task` orchestration engine

Shallow embedding of `pyrobolearn/tasks/task.py` (class `Task`).  The `Env`
and `Policy` collaborators are external to the file under study; they are
modelled from the spec's capability contracts (section 6): an environment is a
stateful object with `reset` and `step(action) -> (observation, reward, done,
info)`, a policy maps observed state to an action and carries a learning
model.  Rewards are modelled as integers (the claims only use integer
rewards), the environment's internal state as a natural number, the
observation returned by `step` is its new internal state, and the `info`
component (ignored by `Task`) is dropped.  Display-only effects
(`render`/`hide`), the `dt` sleep and `deterministic` pass-through flag have
no observable effect on the modelled state and are omitted.
-/

namespace PRL

/-- Modelled from the spec: the external `Environment` collaborator
(spec section 6).  `state` is its current internal state, `init` the state
`reset` re-establishes, and `stepFn` the transition
`state, action ↦ (new state, reward, done)`.  The code for this collaborator
(`pyrobolearn.envs.Env`) is not part of the sources under study. -/
structure Env where
  state : Nat
  init : Nat
  stepFn : Nat → Int → Nat × Int × Bool

/-- Modelled from the spec: the external `Policy` collaborator
(spec section 6), with its learning `model` and `actions` attributes
(abstracted to tags) and its `act` map.  In the source, `policy.act` reads
`policy.states`, whose data is refreshed by the environment's stepping, so
`act` is modelled as a function of the environment's current state. -/
structure Policy where
  model : Nat
  actions : Nat
  actFn : Nat → Int

instance : Inhabited Policy := ⟨⟨0, 0, fun _ => 0⟩⟩

/-- `env.reset()`: reinitialize the internal state (spec section 6; the fresh
observation it returns is discarded by `Task.reset`). -/
def Env.reset (env : Env) : Env :=
  { env with state := env.init }

/-- `policy.reset()`: the policy's reset has no effect observable through the
`Task` interface, so it is the identity on the model. -/
def Policy.reset (p : Policy) : Policy := p

/-- The `Task` object of `task.py`: the bound environment (`self.env`), the
normalized policy sequence (`self.policies`), and the two flags
`self._done`, `self._succeeded`. -/
structure Task where
  env : Env
  policies : List Policy
  done : Bool
  succeeded : Bool

/-- An argument passed as `environment` to the constructor: either an actual
`Env` instance or some other object (tagged with a description), mirroring
the `isinstance(environment, Env)` check of `Task.__init__`. -/
inductive EnvArg where
  | env (e : Env)
  | notEnv (tag : String)

/-- An element of an iterable passed as `policies`: either a `Policy`
instance or some other object, mirroring `isinstance(policy, Policy)`. -/
inductive PolItem where
  | pol (p : Policy)
  | notPol (tag : String)

/-- An argument passed as `policies` to the constructor: a (non-iterable)
single value, or an iterable of values, mirroring the
`isinstance(policies, collections.abc.Iterable)` dispatch of
`Task.__init__`. -/
inductive PoliciesArg where
  | single (item : PolItem)
  | iterable (items : List PolItem)

/-- The validation loop of `Task.__init__` over an iterable `policies`
argument: raises `TypeError` at the first element that is not a `Policy`
instance, otherwise yields the policy list unchanged. -/
def checkPolicies : List PolItem → Except String (List Policy)
  | [] => Except.ok []
  | PolItem.pol p :: rest => (checkPolicies rest).map (fun ps => p :: ps)
  | PolItem.notPol _ :: _ =>
      Except.error "Expecting 'policies' to be a list/tuple of Policy instances"

/-- `Task.__init__(environment, policies)` (task.py lines 67-93): checks the
environment, then dispatches on the `policies` argument (iterable: validate
each element; single `Policy`: wrap into `[policies]`; anything else:
`TypeError`), and initializes `_done = _succeeded = False`.  `Except.error`
models a raised `TypeError`. -/
def Task.make (environment : EnvArg) (policies : PoliciesArg) : Except String Task :=
  match environment with
  | EnvArg.notEnv _ =>
      Except.error "Expecting 'environment' to be an instance of `Env`"
  | EnvArg.env e =>
    match policies with
    | PoliciesArg.iterable items =>
        match checkPolicies items with
        | Except.error msg => Except.error msg
        | Except.ok ps => Except.ok { env := e, policies := ps, done := false, succeeded := false }
    | PoliciesArg.single (PolItem.pol p) =>
        Except.ok { env := e, policies := [p], done := false, succeeded := false }
    | PoliciesArg.single (PolItem.notPol _) =>
        Except.error "Expecting 'policies' to be an instance of Policy, or list/tuple of policies"

/-- `Task.reset()` (task.py lines 204-214): clear both flags, reset the
environment, reset every policy in order. -/
def Task.reset (t : Task) : Task :=
  { t with done := false, succeeded := false,
           env := t.env.reset, policies := t.policies.map Policy.reset }

/-- One round of the loop body of `Task.step` (task.py lines 266-274) for a
single policy: `actions = policy.act(policy.states, ...)`;
`obs, rew, done, info = self.env.step(actions)`. -/
def Env.stepOn (env : Env) (p : Policy) : Env :=
  { env with state := (env.stepFn env.state (p.actFn env.state)).1 }

/-- The reward the environment returns when policy `p` acts on environment
`env` (second component of `env.step(actions)`). -/
def rewardAt (env : Env) (p : Policy) : Int :=
  (env.stepFn env.state (p.actFn env.state)).2.1

/-- The `done` flag the environment reports when policy `p` acts on
environment `env` (third component of `env.step(actions)`). -/
def doneAt (env : Env) (p : Policy) : Bool :=
  (env.stepFn env.state (p.actFn env.state)).2.2

/-- The `for policy in self.policies` loop of `Task.step` (task.py lines
265-274), threading the environment and the `self._done` flag and collecting
the per-policy rewards in order. -/
def stepLoop : List Policy → Env → Bool → Env × Bool × List Int
  | [], env, d => (env, d, [])
  | p :: ps, env, _ =>
      let rest := stepLoop ps (env.stepOn p) (doneAt env p)
      (rest.1, rest.2.1, rewardAt env p :: rest.2.2)

/-- `Task.step()` (task.py lines 250-276): run every policy once through the
environment, overwrite `self._done` each iteration, return the collected
reward vector (`np.array(rewards)`).  The render/hide display toggles are
not part of the modelled state. -/
def Task.step (t : Task) : Task × List Int :=
  let res := stepLoop t.policies t.env t.done
  ({ t with env := res.1, done := res.2.1 }, res.2.2)

/-- Component-wise addition of reward vectors
(`total_rewards += rewards`, task.py line 240). -/
def addVec (xs ys : List Int) : List Int :=
  List.zipWith (fun a b => a + b) xs ys

/-- The value `run` returns (task.py lines 246-248): a bare scalar when the
accumulated reward array has size one, the vector otherwise. -/
inductive RunResult where
  | scalar (total : Int)
  | vector (totals : List Int)
deriving DecidableEq, Repr

/-- The `for t in count()` loop of `Task.run` (task.py lines 234-243) with a
bounded step budget: run `step`, accumulate into `totals`, and stop early
when `use_terminating_condition` holds and `self._done` became true.  The
`time.sleep(dt)` pacing has no modelled effect. -/
def runAux : Task → Nat → Bool → List Int → Task × List Int
  | t, 0, _, totals => (t, totals)
  | t, n + 1, uc, totals =>
      let res := t.step
      let totals2 := addVec totals res.2
      if uc && res.1.done then (res.1, totals2)
      else runAux res.1 n uc totals2

/-- The return convention of `Task.run` (task.py lines 246-248): when the
accumulated reward array has size one return its bare scalar entry
(`total_rewards[0]`), otherwise return the array itself. -/
def collapseTotals : List Int → RunResult
  | [r] => RunResult.scalar r
  | totals => RunResult.vector totals

/-- `Task.run(num_steps, ..., use_terminating_condition, ...)` (task.py lines
216-248) for a bounded `num_steps`: allocate the per-policy accumulator
(`np.zeros(len(self.policies))`), reset, loop, and collapse a size-one total
array to its bare scalar entry.  The unbounded `num_steps=None` variant is a
non-terminating loop and is outside this model. -/
def Task.run (t : Task) (numSteps : Nat) (useTerm : Bool) : Task × RunResult :=
  let res := runAux t.reset numSteps useTerm (List.replicate t.policies.length (0 : Int))
  (res.1, collapseTotals res.2)

/-- `Task.policy` / `Task.learning_model` / `Task.actions` collapse a
singleton sequence to the bare element; the result is one-or-many. -/
inductive View (α : Type) where
  | one (x : α)
  | many (xs : List α)
deriving DecidableEq, Repr

/-- `Task.policy` property (task.py lines 134-141): the single policy when
`len(self.policies) == 1`, otherwise the sequence. -/
def Task.policy (t : Task) : View Policy :=
  match t.policies with
  | [p] => View.one p
  | ps => View.many ps

/-- `Task.learning_model` property (task.py lines 143-150): the single
policy's model when there is exactly one policy, otherwise the list of
models. -/
def Task.learning_model (t : Task) : View Nat :=
  match t.policies with
  | [p] => View.one p.model
  | ps => View.many (ps.map Policy.model)

/-- `Task.actions` property (task.py lines 173-180): the single policy's
actions when there is exactly one policy, otherwise the list of actions. -/
def Task.actions (t : Task) : View Nat :=
  match t.policies with
  | [p] => View.one p.actions
  | ps => View.many (ps.map Policy.actions)

/-- `Task.__copy__` (task.py lines 328-330): a shallow clone built by calling
the constructor again with the same environment and policy references. -/
def Task.copy (t : Task) : Except String Task :=
  Task.make (EnvArg.env t.env) (PoliciesArg.iterable (t.policies.map PolItem.pol))

/-!
## Observational instrumentation of the run loop

`runTrace` records, for the same loop as `runAux`, the reward vector of every
step the loop actually executes; `stepIter` iterates the plain `step` with no
early exit.  They are used to state which steps `run` executes and what it
accumulates.
-/

/-- The list of per-step reward vectors for the steps the `run` loop executes
from a given task state: one `Task.step` per iteration, cut short after a
step when `use_terminating_condition` holds and `done` became true. -/
def runTrace : Task → Nat → Bool → List (List Int)
  | _, 0, _ => []
  | t, n + 1, uc =>
      let res := t.step
      if uc && res.1.done then [res.2]
      else res.2 :: runTrace res.1 n uc

/-- Iterate the plain `Task.step` with no early exit. -/
def stepIter : Task → Nat → Task
  | t, 0 => t
  | t, n + 1 => stepIter (t.step).1 n

/-- The number of steps `run numSteps useTerm` executes on task `t` (the run
loop starts from `t.reset`). -/
def Task.stepsExecuted (t : Task) (numSteps : Nat) (useTerm : Bool) : Nat :=
  (runTrace t.reset numSteps useTerm).length

/-- The task's `done` flag after `j` plain steps from `t.reset`. -/
def Task.doneAfter (t : Task) (j : Nat) : Bool :=
  (stepIter t.reset j).done

/-- The environment object after the first `i` policies of the step loop
have acted, starting from the task's current environment. -/
def envThrough : Env → List Policy → Env
  | env, [] => env
  | env, p :: ps => envThrough (env.stepOn p) ps

/-- Modelled from the spec: the accumulation and return convention of
`Task.run` stated in the spec's words (section 4.4) — sum the per-step
reward vectors of the executed steps component-wise into one accumulator per
policy, then return the bare scalar total when there is exactly one policy
and the vector of per-policy totals otherwise.  The executed steps start
from `t.reset` because `run` calls `reset()` first. -/
def specRunResult (t : Task) (numSteps : Nat) (useTerm : Bool) : RunResult :=
  let totals := (runTrace t.reset numSteps useTerm).foldl addVec
    (List.replicate t.policies.length (0 : Int))
  if t.policies.length = 1 then RunResult.scalar (totals.headD 0)
  else RunResult.vector totals

/-!
## Stub environments and tasks used by the spec's concrete test cases
-/

/-- Modelled from the spec: the deterministic stub environment of the run
accumulation test (spec section 8) — reward 1 per policy per step regardless
of action, never done; its state counts the `env.step` calls. -/
def unitRewardEnv : Env :=
  { state := 0, init := 0, stepFn := fun s _ => (s + 1, 1, false) }

/-- Modelled from the spec: the stub environment of the early-termination
test (spec section 8) — reward 1 per step, `done` becomes true after step 3. -/
def doneAfter3Env : Env :=
  { state := 0, init := 0, stepFn := fun s _ => (s + 1, 1, decide (3 ≤ s + 1)) }

/-- A stub policy with a distinguishing tag. -/
def stubPolicy (tag : Nat) : Policy :=
  { model := tag, actions := tag, actFn := fun _ => 0 }

/-- A 1-policy task over the unit-reward stub environment. -/
def oneTask : Task :=
  { env := unitRewardEnv, policies := [stubPolicy 0], done := false, succeeded := false }

/-- A 2-policy task over the unit-reward stub environment. -/
def twoTask : Task :=
  { env := unitRewardEnv, policies := [stubPolicy 0, stubPolicy 1],
    done := false, succeeded := false }

/-- A 1-policy task over the done-after-3 stub environment. -/
def doneTask : Task :=
  { env := doneAfter3Env, policies := [stubPolicy 0], done := false, succeeded := false }

/-- A 1-policy task whose flags have been forced to true, to exercise the
claim that cloning clears them. -/
def flaggedTask : Task :=
  { env := unitRewardEnv, policies := [stubPolicy 0], done := true, succeeded := true }

/-- The task value the shallow clone of `flaggedTask` should produce: same
environment and policies, flags cleared. -/
def flaggedTaskClone : Task :=
  { env := unitRewardEnv, policies := [stubPolicy 0], done := false, succeeded := false }

/-- A constructor call that raised (`Except.error` models a raised
`TypeError`). -/
def isError {ε α : Type} : Except ε α → Bool
  | Except.error _ => true
  | Except.ok _ => false

/-- Whether an element of a `policies` iterable is a `Policy` instance. -/
def PolItem.isPol : PolItem → Bool
  | PolItem.pol _ => true
  | PolItem.notPol _ => false

/-- Whether the `environment` argument is an `Env` instance. -/
def EnvArg.isEnv : EnvArg → Bool
  | EnvArg.env _ => true
  | EnvArg.notEnv _ => false

/-- A `policies` argument that `Task.__init__` rejects: an iterable holding
an element that is not a `Policy` instance, or a non-iterable value that is
not a `Policy` instance. -/
def badPoliciesArg : PoliciesArg → Bool
  | PoliciesArg.single item => !item.isPol
  | PoliciesArg.iterable items => items.any (fun x => !x.isPol)

/-!
## Helper lemmas
-/

/-- `policy.reset` is the identity on the modelled state. -/
theorem policyReset_eq_id : Policy.reset = id := rfl

/-- Resetting does not change the policy sequence. -/
theorem reset_policies (t : Task) : t.reset.policies = t.policies := by
  simp [Task.reset, policyReset_eq_id]

/-- Stepping does not change the policy sequence. -/
theorem step_fst_policies (t : Task) : (t.step).1.policies = t.policies := rfl

/-- The step loop produces one reward per policy. -/
theorem stepLoop_rewards_length (ps : List Policy) (env : Env) (d : Bool) :
    ((stepLoop ps env d).2.2).length = ps.length := by
  induction ps generalizing env d with
  | nil => rfl
  | cons p ps ih => simp [stepLoop, ih]

/-- `Task.step` produces one reward per policy. -/
theorem step_snd_length (t : Task) : (t.step).2.length = t.policies.length := by
  simpa [Task.step] using stepLoop_rewards_length t.policies t.env t.done

/-- The `i`-th reward collected by the step loop is the reward the
environment returns when the `i`-th policy acts, the environment having
already been stepped through the previous `i` policies. -/
theorem stepLoop_rewards_get (ps : List Policy) (env : Env) (d : Bool) (i : Nat) :
    (stepLoop ps env d).2.2[i]? =
      (ps[i]?).map (fun p => rewardAt (envThrough env (ps.take i)) p) := by
  induction ps generalizing env d i with
  | nil => simp [stepLoop]
  | cons p ps ih =>
    cases i with
    | zero => simp [stepLoop, envThrough]
    | succ i =>
      simp only [stepLoop, List.getElem?_cons_succ, List.take_succ_cons]
      rw [show envThrough env (p :: ps.take i) = envThrough (env.stepOn p) (ps.take i) from rfl]
      exact ih (env.stepOn p) (doneAt env p) i

/-- The done flag the step loop leaves behind is the environment's report
for the last policy. -/
theorem stepLoop_done_last (ps : List Policy) (env : Env) (d : Bool) (p : Policy)
    (h : ps.getLast? = some p) :
    (stepLoop ps env d).2.1 = doneAt (envThrough env ps.dropLast) p := by
  induction ps generalizing env d with
  | nil => simp at h
  | cons q ps ih =>
    cases ps with
    | nil =>
      simp only [List.getLast?_singleton, Option.some.injEq] at h
      subst h
      simp [stepLoop, envThrough]
    | cons r ps =>
      rw [List.getLast?_cons_cons] at h
      rw [show (stepLoop (q :: r :: ps) env d).2.1
          = (stepLoop (r :: ps) (env.stepOn q) (doneAt env q)).2.1 from rfl]
      rw [ih (env.stepOn q) (doneAt env q) h]
      rfl

/-- Unfolding the accumulator of the bounded run loop: its final totals are
the fold of the executed-step reward trace over the initial totals. -/
theorem runAux_snd (t : Task) (n : Nat) (uc : Bool) (totals : List Int) :
    (runAux t n uc totals).2 = (runTrace t n uc).foldl addVec totals := by
  induction n generalizing t totals with
  | zero => rfl
  | succ n ih =>
    simp only [runAux, runTrace]
    by_cases h : (uc && (t.step).1.done) = true
    · simp [h]
    · simp only [h, Bool.false_eq_true, if_false, List.foldl_cons]
      exact ih (t.step).1 (addVec totals (t.step).2)

/-- Every reward vector in the executed-step trace has one entry per
policy. -/
theorem runTrace_length_mem (t : Task) (n : Nat) (uc : Bool) :
    ∀ v ∈ runTrace t n uc, v.length = t.policies.length := by
  induction n generalizing t with
  | zero => simp [runTrace]
  | succ n ih =>
    intro v hv
    simp only [runTrace] at hv
    by_cases h : (uc && (t.step).1.done) = true
    · simp only [h, if_true, List.mem_singleton] at hv
      subst hv
      exact step_snd_length t
    · simp only [h, Bool.false_eq_true, if_false, List.mem_cons] at hv
      rcases hv with rfl | hv
      · exact step_snd_length t
      · rw [← step_fst_policies t]
        exact ih (t.step).1 v hv

/-- Folding component-wise addition over same-length vectors preserves the
length. -/
theorem foldl_addVec_length (vecs : List (List Int)) (acc : List Int) (n : Nat)
    (hacc : acc.length = n) (hv : ∀ v ∈ vecs, v.length = n) :
    (vecs.foldl addVec acc).length = n := by
  induction vecs generalizing acc with
  | nil => simpa using hacc
  | cons v vs ih =>
    simp only [List.foldl_cons]
    refine ih (addVec acc v) ?_ ?_
    · simp [addVec, hacc, hv v (by simp)]
    · intro w hw
      exact hv w (by simp [hw])

/-- The collapse step of `run` in terms of the length of the totals. -/
theorem collapseTotals_eq (totals : List Int) (n : Nat) (h : totals.length = n) :
    collapseTotals totals =
      if n = 1 then RunResult.scalar (totals.headD 0) else RunResult.vector totals := by
  subst h
  rcases totals with _ | ⟨a, _ | ⟨b, l⟩⟩ <;> rfl

/-- Without the terminating condition the run loop executes every one of its
`n` budgeted steps. -/
theorem runTrace_false_length (t : Task) (n : Nat) :
    (runTrace t n false).length = n := by
  induction n generalizing t with
  | zero => rfl
  | succ n ih => simp [runTrace, ih]

/-- With the terminating condition on, every executed step except possibly
the last one left the done flag false: the loop never continues past a step
that reported done. -/
theorem runTrace_true_done (t : Task) (n : Nat) (j : Nat) (hj : 1 ≤ j)
    (hlt : j < (runTrace t n true).length) :
    (stepIter t j).done = false := by
  induction n generalizing t j with
  | zero => simp [runTrace] at hlt
  | succ n ih =>
    simp only [runTrace] at hlt
    by_cases h : (t.step).1.done = true
    · simp [h] at hlt
      omega
    · simp only [h, Bool.true_and, Bool.false_eq_true, if_false, List.length_cons] at hlt
      cases j with
      | zero => omega
      | succ j =>
        show (stepIter (t.step).1 j).done = false
        rcases Nat.eq_zero_or_pos j with h0 | h1
        · subst h0
          simpa [stepIter] using h
        · exact ih (t.step).1 j h1 (by omega)

/-- `Except.map` preserves the error status. -/
theorem isError_map {ε α β : Type} (f : α → β) (e : Except ε α) :
    isError (e.map f) = isError e := by
  cases e <;> rfl

/-- The validation loop fails exactly when some element of the iterable is
not a `Policy` instance. -/
theorem checkPolicies_error (items : List PolItem) :
    isError (checkPolicies items) = items.any (fun x => !x.isPol) := by
  induction items with
  | nil => rfl
  | cons x rest ih =>
    cases x with
    | pol p => simpa [checkPolicies, PolItem.isPol, isError_map] using ih
    | notPol s => simp [checkPolicies, PolItem.isPol, isError]

/-- The validation loop accepts a list of `Policy` instances unchanged. -/
theorem checkPolicies_map_pol (ps : List Policy) :
    checkPolicies (ps.map PolItem.pol) = Except.ok ps := by
  induction ps with
  | nil => rfl
  | cons p ps ih => simp [checkPolicies, ih, Except.map]

/-- The validation loop preserves the number of elements. -/
theorem checkPolicies_length (items : List PolItem) (ps : List Policy)
    (h : checkPolicies items = Except.ok ps) : ps.length = items.length := by
  induction items generalizing ps with
  | nil =>
    simp only [checkPolicies, Except.ok.injEq] at h
    subst h
    rfl
  | cons x rest ih =>
    cases x with
    | pol p =>
      simp only [checkPolicies] at h
      cases hrec : checkPolicies rest with
      | error msg => rw [hrec] at h; simp [Except.map] at h
      | ok qs =>
        rw [hrec] at h
        simp only [Except.map, Except.ok.injEq] at h
        subst h
        simp [ih qs hrec]
    | notPol s => simp [checkPolicies] at h

/-- The run result agrees with the spec-worded accumulation: fold the
executed-step reward trace component-wise and collapse singleton totals. -/
theorem run_eq_specRunResult (t : Task) (k : Nat) (uc : Bool) :
    (t.run k uc).2 = specRunResult t k uc := by
  have hmem : ∀ v ∈ runTrace t.reset k uc, v.length = t.policies.length := by
    intro v hv
    rw [← reset_policies t]
    exact runTrace_length_mem t.reset k uc v hv
  have hfold : ((runTrace t.reset k uc).foldl addVec
      (List.replicate t.policies.length (0 : Int))).length = t.policies.length :=
    foldl_addVec_length _ _ _ (by simp) hmem
  show collapseTotals (runAux t.reset k uc (List.replicate t.policies.length (0 : Int))).2
      = specRunResult t k uc
  rw [runAux_snd, collapseTotals_eq _ _ hfold]
  rfl

/-!
## Claim theorems
-/

/-- C1 (counterexample): the constructor accepts an empty iterable of
policies — the validation loop runs zero times — and stores an empty
policies sequence, so the claimed invariant "`policies` is non-empty after
every successful construction" fails. -/
theorem task_make_accepts_empty_iterable :
    ∃ t : Task, Task.make (EnvArg.env unitRewardEnv) (PoliciesArg.iterable []) = Except.ok t
      ∧ t.policies.length = 0 :=
  ⟨{ env := unitRewardEnv, policies := [], done := false, succeeded := false }, rfl, rfl⟩

/-- C1 (amended): after every successful construction from a single policy
or from a non-empty iterable, the stored policies sequence is non-empty; an
empty iterable, however, is accepted and yields an empty sequence. -/
theorem task_policies_nonempty_amended (ea : EnvArg) (t : Task) :
    (∀ item : PolItem, Task.make ea (PoliciesArg.single item) = Except.ok t →
        t.policies ≠ [])
    ∧ (∀ items : List PolItem, items ≠ [] →
        Task.make ea (PoliciesArg.iterable items) = Except.ok t → t.policies ≠ []) := by
  constructor
  · intro item h
    cases ea with
    | notEnv s => simp [Task.make] at h
    | env e =>
      cases item with
      | pol p =>
        simp only [Task.make, Except.ok.injEq] at h
        subst h
        simp
      | notPol s => simp [Task.make] at h
  · intro items hne h
    cases ea with
    | notEnv s => simp [Task.make] at h
    | env e =>
      cases hc : checkPolicies items with
      | error msg => simp [Task.make, hc] at h
      | ok ps =>
        simp only [Task.make, hc, Except.ok.injEq] at h
        subst h
        have hlen := checkPolicies_length items ps hc
        show ps ≠ []
        intro hnil
        subst hnil
        simp only [List.length_nil] at hlen
        exact hne (List.eq_nil_of_length_eq_zero hlen.symm)

/-- C1 (amended, witness): construction from the single stub policy succeeds
and stores a non-empty sequence. -/
theorem task_policies_nonempty_amended_witness :
    Task.make (EnvArg.env unitRewardEnv) (PoliciesArg.single (PolItem.pol (stubPolicy 0)))
      = Except.ok { env := unitRewardEnv, policies := [stubPolicy 0],
                    done := false, succeeded := false }
    ∧ ({ env := unitRewardEnv, policies := [stubPolicy 0],
         done := false, succeeded := false } : Task).policies ≠ [] :=
  ⟨rfl, (task_policies_nonempty_amended (EnvArg.env unitRewardEnv) _).1
    (PolItem.pol (stubPolicy 0)) rfl⟩

/-- C2: for every task and every step budget `k ≥ 1`, `run` first calls
`reset()` (the executed-step trace starts from the reset task), sums the
per-step reward vectors component-wise, and returns the bare scalar total
when there is exactly one policy and the vector of per-policy totals
otherwise; on the unit-reward stub environment, `run(num_steps=5)` returns
`5` for the 1-policy task and `[5, 5]` for the 2-policy task. -/
theorem run_resets_accumulates_and_collapses :
    (∀ (t : Task) (k : Nat) (uc : Bool), 1 ≤ k → (t.run k uc).2 = specRunResult t k uc)
    ∧ (oneTask.run 5 false).2 = RunResult.scalar 5
    ∧ (twoTask.run 5 false).2 = RunResult.vector [5, 5] :=
  ⟨fun t k uc _ => run_eq_specRunResult t k uc, by decide, by decide⟩

/-- C2 (witness): the general statement applied to the 1-policy stub task
with `k = 5`. -/
theorem run_resets_accumulates_and_collapses_witness :
    1 ≤ 5 ∧ (oneTask.run 5 false).2 = specRunResult oneTask 5 false :=
  ⟨by decide, run_resets_accumulates_and_collapses.1 oneTask 5 false (by decide)⟩

/-- C3: every call to `step()` returns exactly one reward per policy, and
the `i`-th entry is the reward the environment returned for the action of
the `i`-th policy in construction order (the environment having already
stepped through the previous `i` policies). -/
theorem step_returns_one_reward_per_policy (t : Task) :
    (t.step).2.length = t.policies.length
    ∧ ∀ i : Nat, (t.step).2[i]? =
        (t.policies[i]?).map (fun p => rewardAt (envThrough t.env (t.policies.take i)) p) :=
  ⟨step_snd_length t, fun i => stepLoop_rewards_get t.policies t.env t.done i⟩

/-- C4: with `use_terminating_condition=True` no step is executed after a
step in which the environment reported done; with it false the loop
executes its whole budget.  On the stub environment whose done becomes true
after step 3, `run(num_steps=10, use_terminating_condition=True)` executes
exactly 3 steps with accumulated reward 3, while the same call with
`use_terminating_condition=False` executes all 10 steps. -/
theorem run_early_termination :
    (∀ (t : Task) (k j : Nat), 1 ≤ j → j < t.stepsExecuted k true → t.doneAfter j = false)
    ∧ (∀ (t : Task) (k : Nat), t.stepsExecuted k false = k)
    ∧ doneTask.stepsExecuted 10 true = 3
    ∧ (doneTask.run 10 true).2 = RunResult.scalar 3
    ∧ doneTask.stepsExecuted 10 false = 10
    ∧ (doneTask.run 10 false).2 = RunResult.scalar 10 :=
  ⟨fun t k j hj hlt => runTrace_true_done t.reset k j hj hlt,
   fun t k => runTrace_false_length t.reset k,
   by decide, by decide, by decide, by decide⟩

/-- C4 (witness): on the done-after-3 stub task, step 2 lies strictly before
the 3 executed steps and its done flag is false. -/
theorem run_early_termination_witness :
    (1 ≤ 2 ∧ 2 < doneTask.stepsExecuted 10 true) ∧ doneTask.doneAfter 2 = false :=
  ⟨⟨by decide, by decide⟩, run_early_termination.1 doneTask 10 2 (by decide) (by decide)⟩

/-- C5: after `step()` returns, the task's done flag equals the done value
the environment reported for the last policy in the sequence (the flag is
overwritten once per policy, so the last policy processed wins). -/
theorem step_done_last_policy_wins (t : Task) (h : t.policies ≠ []) :
    ∃ p : Policy, t.policies.getLast? = some p ∧
      (t.step).1.done = doneAt (envThrough t.env t.policies.dropLast) p := by
  obtain ⟨p, hp⟩ := Option.isSome_iff_exists.mp (List.getLast?_isSome.mpr h)
  exact ⟨p, hp, stepLoop_done_last t.policies t.env t.done p hp⟩

/-- C5 (witness): the statement applied to the 2-policy stub task. -/
theorem step_done_last_policy_wins_witness :
    twoTask.policies ≠ [] ∧
      ∃ p : Policy, twoTask.policies.getLast? = some p ∧
        (twoTask.step).1.done = doneAt (envThrough twoTask.env twoTask.policies.dropLast) p :=
  ⟨by simp [twoTask], step_done_last_policy_wins twoTask (by simp [twoTask])⟩

/-- C6: the constructor raises a `TypeError`-class error exactly when the
environment is not an `Env` instance, or the policies argument is an
iterable containing a non-`Policy` element, or it is neither an iterable
nor a single `Policy`; it succeeds for a single valid policy (wrapped into
a one-element sequence) and for a list of valid policies. -/
theorem task_make_typeerror_iff :
    (∀ (ea : EnvArg) (pa : PoliciesArg),
      isError (Task.make ea pa) = (!ea.isEnv || badPoliciesArg pa))
    ∧ (∀ (e : Env) (p : Policy),
      Task.make (EnvArg.env e) (PoliciesArg.single (PolItem.pol p)) =
        Except.ok { env := e, policies := [p], done := false, succeeded := false })
    ∧ (∀ (e : Env) (ps : List Policy),
      Task.make (EnvArg.env e) (PoliciesArg.iterable (ps.map PolItem.pol)) =
        Except.ok { env := e, policies := ps, done := false, succeeded := false }) := by
  refine ⟨?_, ?_, ?_⟩
  · intro ea pa
    cases ea with
    | notEnv s => rfl
    | env e =>
      cases pa with
      | single item => cases item <;> rfl
      | iterable items =>
        have h1 : isError (Task.make (EnvArg.env e) (PoliciesArg.iterable items))
            = isError (checkPolicies items) := by
          cases hc : checkPolicies items <;> simp [Task.make, hc, isError]
        rw [h1, checkPolicies_error]
        rfl
  · intro e p
    rfl
  · intro e ps
    simp [Task.make, checkPolicies_map_pol ps]

/-- C7: `reset()` leaves `done = False` and `succeeded = False`, and calling
it twice leaves the same externally observable flag state as calling it
once. -/
theorem reset_flags_idempotent (t : Task) :
    (t.reset).done = false ∧ (t.reset).succeeded = false
    ∧ ((t.reset).reset).done = (t.reset).done
    ∧ ((t.reset).reset).succeeded = (t.reset).succeeded :=
  ⟨rfl, rfl, rfl, rfl⟩

/-- C8: for a 1-policy task the accessors `policy`, `actions`,
`learning_model` return the single underlying element directly; for a task
with two or more policies they return sequences whose length equals the
number of policies. -/
theorem accessor_singleton_collapse (t : Task) :
    (∀ p : Policy, t.policies = [p] →
        t.policy = View.one p ∧ t.actions = View.one p.actions
        ∧ t.learning_model = View.one p.model)
    ∧ (2 ≤ t.policies.length →
        t.policy = View.many t.policies
        ∧ t.learning_model = View.many (t.policies.map Policy.model)
        ∧ (t.policies.map Policy.model).length = t.policies.length
        ∧ t.actions = View.many (t.policies.map Policy.actions)
        ∧ (t.policies.map Policy.actions).length = t.policies.length) := by
  constructor
  · intro p h
    refine ⟨?_, ?_, ?_⟩ <;> simp [Task.policy, Task.actions, Task.learning_model, h]
  · intro h
    rcases hp : t.policies with _ | ⟨a, _ | ⟨b, l⟩⟩
    · rw [hp] at h; simp at h
    · rw [hp] at h; simp at h
    · refine ⟨?_, ?_, ?_, ?_, ?_⟩ <;>
        simp [Task.policy, Task.actions, Task.learning_model, hp]

/-- C8 (witness): the statement applied to the 1-policy and 2-policy stub
tasks. -/
theorem accessor_singleton_collapse_witness :
    oneTask.policies = [stubPolicy 0]
    ∧ (oneTask.policy = View.one (stubPolicy 0)
        ∧ oneTask.actions = View.one (stubPolicy 0).actions
        ∧ oneTask.learning_model = View.one (stubPolicy 0).model)
    ∧ 2 ≤ twoTask.policies.length
    ∧ (twoTask.policy = View.many twoTask.policies
        ∧ twoTask.learning_model = View.many (twoTask.policies.map Policy.model)
        ∧ (twoTask.policies.map Policy.model).length = twoTask.policies.length
        ∧ twoTask.actions = View.many (twoTask.policies.map Policy.actions)
        ∧ (twoTask.policies.map Policy.actions).length = twoTask.policies.length) :=
  ⟨rfl, (accessor_singleton_collapse oneTask).1 (stubPolicy 0) rfl,
   by decide, (accessor_singleton_collapse twoTask).2 (by decide)⟩

/-- C9: the shallow clone built by `__copy__` is a new task whose
environment is the original's environment and whose policies are the
original's policy references. -/
theorem shallow_copy_aliases (t : Task) :
    ∃ t' : Task, t.copy = Except.ok t' ∧ t'.env = t.env ∧ t'.policies = t.policies := by
  refine ⟨{ env := t.env, policies := t.policies, done := false, succeeded := false },
    ?_, rfl, rfl⟩
  simp [Task.copy, Task.make, checkPolicies_map_pol]

/-- C10: a shallow clone's done and succeeded flags are both false
regardless of the original task's flag values, because the clone is built
through the constructor. -/
theorem shallow_copy_clears_flags (t t' : Task) (h : t.copy = Except.ok t') :
    t'.done = false ∧ t'.succeeded = false := by
  simp only [Task.copy, Task.make, checkPolicies_map_pol, Except.ok.injEq] at h
  subst h
  exact ⟨rfl, rfl⟩

/-- C10 (witness): cloning the stub task whose flags were forced to true
produces a clone with both flags false. -/
theorem shallow_copy_clears_flags_witness :
    flaggedTask.copy = Except.ok flaggedTaskClone
    ∧ (flaggedTaskClone.done = false ∧ flaggedTaskClone.succeeded = false) :=
  ⟨rfl, shallow_copy_clears_flags flaggedTask flaggedTaskClone rfl⟩

end PRL
